import Mathlib

/-!
Verification development for the HK Primary Care Directory scraper
(`scraper/doctors_scraper.py`).

The source program drives a browser over three region buttons, paginates
through result pages, parses the concatenated `tbody` markup with an HTML
library into records, and writes them to a CSV file.

Shallow embedding conventions used below:

* Strings are modelled as `List Char` (`Str`).  Python `" ".join(s.split())`
  becomes `normWS`; `"sep".join(xs)` becomes `joinSep`.
* A table row (`<tr>`) is modelled by `Row`, whose fields are the results of
  the HTML-library queries that `parse_html_to_data` performs on the row
  (`find('div', class_='PHName')`, `find_all('a')` in document order,
  `find_all('td')`, `find('div', class_='plan-list')`, ...).  The HTML
  parsing itself is an external library and is abstracted by a function
  `Str → List Row` where the pipeline needs it.
* The regex `wgs84/([\d\.]+)/([\d\.]+)` applied with `re.search` is modelled
  by `wgs84Search` (leftmost match; each group is a maximal nonempty run of
  the class `[\d\.]`, modelled over ASCII digits).
* The Selenium interaction of one `scrape_region` attempt is modelled by the
  inductive `Attempt`/`PageSeq`: every terminating execution of the
  `while True` pagination loop either raises while reading the results body
  (`capFail`, caught by the *outer* `except`), or ends at a page whose inner
  `try` block raises (`stopNoNext` when the "next page" control is absent,
  `stopInnerExn` for any other exception inside the inner `try`, e.g. the
  timeout waiting for rows to re-render; the bare `except: break` treats
  both identically), or clicks "next" successfully (`next`).
* The retry loop of `scrape_region` additionally records the
  `time.sleep(5)` backoffs and failed attempts as `RegionEvent`s.
* `save_to_csv` and `main` return pure descriptions (`CsvWrite`,
  `MainOutcome`) of the effects the Python functions perform.
-/

namespace DoctorsScraper

/-- Strings of the model. -/
abbrev Str := List Char

/-- Convert a Lean string literal into the model's string type. -/
def toL (s : String) : Str := s.toList

/-- Whitespace as recognised by Python's `str.split()` (ASCII fragment). -/
def isPySpace (c : Char) : Bool :=
  c = ' ' || c = '\t' || c = '\n' || c = '\r' || c = '\x0b' || c = '\x0c'

/-- Worker for `splitWS`: `acc` is the word currently being read. -/
def splitWSAux : Str → Str → List Str
  | acc, [] => if acc = [] then [] else [acc]
  | acc, c :: t =>
    if isPySpace c then
      if acc = [] then splitWSAux [] t else acc :: splitWSAux [] t
    else splitWSAux (acc ++ [c]) t

/-- Python `s.split()`: the maximal nonempty whitespace-free words of `s`. -/
def splitWS (l : Str) : List Str := splitWSAux [] l

/-- Python `sep.join(xs)`. -/
def joinSep (sep : Str) : List Str → Str
  | [] => []
  | [w] => w
  | w :: x :: rest => w ++ sep ++ joinSep sep (x :: rest)

/-- Line 171 of the source: `address = " ".join(address.split())` —
whitespace normalization (collapse runs, trim). -/
def normWS (l : Str) : Str := joinSep [' '] (splitWS l)

/-- The character class `[\d\.]` of the coordinate regex (ASCII digits). -/
def isDigitDot (c : Char) : Bool := c.isDigit || c = '.'

/-- The literal part `wgs84/` of the coordinate regex. -/
def wgsTag : Str := toL "wgs84/"

/-- Attempt to match `wgs84/([\d\.]+)/([\d\.]+)` at the start of `l`,
returning the two groups.  Each group is a maximal nonempty `[\d\.]` run
(greedy; backtracking cannot produce anything else since `/` is not in the
class). -/
def matchAt (l : Str) : Option (Str × Str) :=
  if wgsTag.isPrefixOf l then
    if (l.drop wgsTag.length).takeWhile isDigitDot = [] then none
    else
      match (l.drop wgsTag.length).dropWhile isDigitDot with
      | '/' :: r2 =>
        if r2.takeWhile isDigitDot = [] then none
        else some ((l.drop wgsTag.length).takeWhile isDigitDot,
                   r2.takeWhile isDigitDot)
      | _ => none
  else none

/-- `re.search(r'wgs84/([\d\.]+)/([\d\.]+)', l)`: leftmost match. -/
def wgs84Search : Str → Option (Str × Str)
  | [] => none
  | c :: t =>
    match matchAt (c :: t) with
    | some r => some r
    | none => wgs84Search t

/-- Python's substring test `needle in hay`. -/
def hasSub (needle hay : Str) : Bool := hay.tails.any (fun s => needle.isPrefixOf s)

/-- An `<a>` element of a row: its `href` attribute (if any), its stripped
text, and — used only when the anchor is a map link — the stripped text of
its first descendant `div.SPListTableTd` (if any). -/
structure Anchor where
  href : Option Str
  text : Str
  addrDiv : Option Str
deriving DecidableEq

/-- A `<td>` cell: the stripped text of its first `<span>` (if any) and the
stripped texts of all its `div.SPListTableTd` descendants, in order. -/
structure Cell where
  span : Option Str
  addrDivs : List Str
deriving DecidableEq

/-- A `<tr>` row, as seen through the queries of `parse_html_to_data`:
`nameDiv` is the stripped text of `find('div', class_='PHName')`;
`nameAnchor` is `some h` when that div has an enclosing `<a>` (with
`h` its optional `href`); `anchors` are all `<a>` descendants in document
order; `cols` are the `<td>` cells; `planList` is, when
`div.plan-list` exists, one entry per `div.plan`: `some (some alt)` for a
plan whose `<img>` has an `alt`, `some none` for an `<img>` without `alt`,
`none` for a plan without `<img>`. -/
structure Row where
  nameDiv : Option Str
  nameAnchor : Option (Option Str)
  anchors : List Anchor
  cols : List Cell
  planList : Option (List (Option (Option Str)))
deriving DecidableEq

/-- One extracted record (lines 183–192 of the source). -/
structure Record where
  Name : Str
  ProfileLink : Str
  Description : Str
  Address : Str
  Phone : Str
  Lat : Str
  Lon : Str
  Programs : Str
deriving DecidableEq

/-- Predicate of `row.find('a', href=lambda x: x and x.startswith('tel:'))`. -/
def isTelAnchor (a : Anchor) : Bool :=
  match a.href with
  | some h => !h.isEmpty && (toL "tel:").isPrefixOf h
  | none => false

/-- Predicate of `row.find('a', href=lambda x: x and 'map.gov.hk' in x)`. -/
def isMapAnchor (a : Anchor) : Bool :=
  match a.href with
  | some h => !h.isEmpty && hasSub (toL "map.gov.hk") h
  | none => false

/-- `map_link = row.find('a', href=lambda x: x and 'map.gov.hk' in x)`. -/
def mapLinkOf (row : Row) : Option Anchor := row.anchors.find? isMapAnchor

/-- `phone = phone_link.get_text(strip=True) if phone_link else ""`. -/
def phoneOf (row : Row) : Str :=
  match row.anchors.find? isTelAnchor with
  | some a => a.text
  | none => []

/-- Lines 131–134: profile link from the anchor enclosing the name div
(`if name_anchor and name_anchor.get('href')`; an empty href is falsy). -/
def profileLinkOf (row : Row) : Str :=
  match row.nameAnchor with
  | some (some h) =>
    if h.isEmpty then [] else toL "https://apps.pcdirectory.gov.hk" ++ h
  | _ => []

/-- Lines 139–144: `practice` from the first span of `cols[1]`
(when `len(cols) > 1`). -/
def practiceOf (row : Row) : Str :=
  match row.cols with
  | _ :: c1 :: _ =>
    match c1.span with
    | some t => t
    | none => []
  | _ => []

/-- `map_link.get('href', '')`. -/
def hrefOf (a : Anchor) : Str :=
  match a.href with
  | some h => h
  | none => []

/-- Lines 146–157: `lat`/`lon` from the regex match on the map-link href;
both stay empty when there is no map link or no match. -/
def latLonOf (row : Row) : Str × Str :=
  match mapLinkOf row with
  | some a =>
    match wgs84Search (hrefOf a) with
    | some p => p
    | none => ([], [])
  | none => ([], [])

/-- Lines 159–161: address from the `div.SPListTableTd` inside the map link. -/
def mapAddressOf (row : Row) : Str :=
  match mapLinkOf row with
  | some a =>
    match a.addrDiv with
    | some t => t
    | none => []
  | none => []

/-- Lines 163–169: fallback scan of the `div.SPListTableTd`s of `cols[1]`
for the first nonempty text not containing `"Show Map"`. -/
def fallbackAddressOf (row : Row) : Str :=
  match row.cols with
  | _ :: c1 :: _ =>
    match c1.addrDivs.find? (fun t => !t.isEmpty && !hasSub (toL "Show Map") t) with
    | some t => t
    | none => []
  | _ => []

/-- The address before normalization: the map-link address when it is
nonempty (a falsy `""` triggers the fallback), otherwise the fallback. -/
def rawAddressOf (row : Row) : Str :=
  if mapAddressOf row = [] then fallbackAddressOf row else mapAddressOf row

/-- Line 171: the normalized address of a row. -/
def addressOf (row : Row) : Str := normWS (rawAddressOf row)

/-- Lines 173–180: program alt-texts (`if img and img.get('alt')`;
an empty alt is falsy). -/
def programAlts (plans : List (Option (Option Str))) : List Str :=
  plans.filterMap (fun p =>
    match p with
    | some (some a) => if a.isEmpty then none else some a
    | _ => none)

/-- `"; ".join(programs)` over the plan list (empty when there is none). -/
def programsOf (row : Row) : Str :=
  match row.planList with
  | some plans => joinSep (toL "; ") (programAlts plans)
  | none => []

/-- The body of the `for row in rows` loop of `parse_html_to_data`:
`continue` when there is no name div; emit the record only when both the
name and the normalized address are nonempty (`if name and address`). -/
def parseRow (row : Row) : Option Record :=
  match row.nameDiv with
  | none => none
  | some name =>
    if name ≠ [] ∧ addressOf row ≠ [] then
      some { Name := name
             ProfileLink := profileLinkOf row
             Description := practiceOf row
             Address := addressOf row
             Phone := phoneOf row
             Lat := (latLonOf row).1
             Lon := (latLonOf row).2
             Programs := programsOf row }
    else none

/-- `parse_html_to_data`, after the external HTML library has turned the
markup into its row query results: one optional record per row, in order. -/
def parse_html_to_data (rows : List Row) : List Record := rows.filterMap parseRow

/-- One terminating execution of the `while True` pagination loop of
`scrape_region` (lines 62–79), page by page:
`capFail` — reading the results body raised (caught by the *outer*
`except`, aborting the attempt); `stopNoNext h` — page `h` captured and the
"next page" control was absent (`find_element` raised, `except: break`);
`stopInnerExn h` — page `h` captured and some other statement of the inner
`try` raised (e.g. the wait for rows to re-render timed out), which the bare
`except: break` treats identically; `next h rest` — page `h` captured,
"next" clicked and rows re-rendered, loop continues with `rest`. -/
inductive PageSeq where
  | capFail : PageSeq
  | stopNoNext : Str → PageSeq
  | stopInnerExn : Str → PageSeq
  | next : Str → PageSeq → PageSeq
deriving DecidableEq

/-- The pages accumulated in `all_pages_html` by a pagination execution,
`none` when the execution aborts with an exception. -/
def runPages : PageSeq → Option (List Str)
  | PageSeq.capFail => none
  | PageSeq.stopNoNext h => some [h]
  | PageSeq.stopInnerExn h => some [h]
  | PageSeq.next h rest => (runPages rest).map (fun l => h :: l)

/-- An exception-free pagination of the pages `h :: hs`, the last page
having no "next page" control. -/
def mkPages : Str → List Str → PageSeq
  | h, [] => PageSeq.stopNoNext h
  | h, h2 :: t => PageSeq.next h (mkPages h2 t)

/-- One attempt of `scrape_region`: either the navigation/wait prelude
(lines 44–57) raises, or the pagination loop runs. -/
inductive Attempt where
  | setupFail : Attempt
  | run : PageSeq → Attempt
deriving DecidableEq

/-- What one attempt returns: `"\n".join(all_pages_html)` on success,
`none` when the attempt raises (caught at line 83). -/
def runAttempt : Attempt → Option Str
  | Attempt.setupFail => none
  | Attempt.run p => (runPages p).map (joinSep (toL "\n"))

/-- Observable events of the retry loop: a failed attempt (line 84) and the
`time.sleep(5)` backoff before the next attempt (line 87). -/
inductive RegionEvent where
  | attemptFailed : Nat → RegionEvent
  | sleptFive : RegionEvent
deriving DecidableEq

/-- The `for attempt in range(max_retries)` loop of `scrape_region`:
`rem` attempts remain, the current one is attempt `i`.  A successful
attempt returns its markup; a failed one backs off 5 s and retries when
`attempt < max_retries - 1`, otherwise the region yields `None`. -/
def scrapeRegionAux (b : Nat → Attempt) (maxRetries : Nat) :
    Nat → Nat → Option Str × List RegionEvent
  | 0, _ => (none, [])
  | rem + 1, i =>
    match runAttempt (b i) with
    | some s => (some s, [])
    | none =>
      if i < maxRetries - 1 then
        ((scrapeRegionAux b maxRetries rem (i + 1)).1,
         RegionEvent.attemptFailed i :: RegionEvent.sleptFive ::
           (scrapeRegionAux b maxRetries rem (i + 1)).2)
      else (none, [RegionEvent.attemptFailed i])

/-- `scrape_region(driver, region_id, base_url, max_retries)`, where
`b i` describes what the browser does during attempt `i`. -/
def scrape_region (b : Nat → Attempt) (maxRetries : Nat) :
    Option Str × List RegionEvent :=
  scrapeRegionAux b maxRetries maxRetries 0

/-- Shift the attempt index of an event by one. -/
def bump : RegionEvent → RegionEvent
  | RegionEvent.attemptFailed i => RegionEvent.attemptFailed (i + 1)
  | RegionEvent.sleptFive => RegionEvent.sleptFive

/-- The event trace of a region all of whose attempts fail. -/
def allFailTrace (maxRetries : Nat) : Nat → Nat → List RegionEvent
  | 0, _ => []
  | rem + 1, i =>
    if i < maxRetries - 1 then
      RegionEvent.attemptFailed i :: RegionEvent.sleptFive ::
        allFailTrace maxRetries rem (i + 1)
    else [RegionEvent.attemptFailed i]

/-- `REGION_BUTTONS` (line 25). -/
def REGION_BUTTONS : List Str :=
  [toL "CommandHK", toL "CommandKLN", toL "CommandNT"]

/-- Lines 106–111 of `scrape_all_regions`: a region's contribution to
`all_html_parts` — dropped when `scrape_region` returned `None` or the
falsy `""`. -/
def regionResult (bs : Str → Nat → Attempt) (r : Str) : Option Str :=
  match (scrape_region (bs r) 3).1 with
  | some h => if h = [] then none else some h
  | none => none

/-- `scrape_all_regions`: sequential scrape of the fixed regions,
`"\n".join(all_html_parts)` of the successful parts. -/
def scrape_all_regions (bs : Str → Nat → Attempt) : Str :=
  joinSep (toL "\n") (REGION_BUTTONS.filterMap (regionResult bs))

/-- The file `save_to_csv` writes: encoding and delimiter as passed to
`open`/`csv.DictWriter`, the header row, and one field row per record. -/
structure CsvWrite where
  encoding : Str
  delim : Char
  header : List Str
  rows : List (List Str)
deriving DecidableEq

/-- The message `save_to_csv` prints. -/
inductive SaveLog where
  | noDataToSave : SaveLog
  | saved : Nat → Str → SaveLog
deriving DecidableEq

/-- `fieldnames` (line 202). -/
def fieldnames : List Str :=
  [toL "Name", toL "ProfileLink", toL "Description", toL "Address",
   toL "Phone", toL "Lat", toL "Lon", toL "Programs"]

/-- A record's values in `fieldnames` order, as `csv.DictWriter` emits them. -/
def recordFields (r : Record) : List Str :=
  [r.Name, r.ProfileLink, r.Description, r.Address, r.Phone, r.Lat, r.Lon,
   r.Programs]

/-- `save_to_csv(data_list, output_filename)`: no file and a log message on
empty input; otherwise the UTF-8 comma-delimited file with header and one
row per record, plus the `Saved ... records` message. -/
def save_to_csv (data : List Record) (outputFilename : Str) :
    Option CsvWrite × SaveLog :=
  if data = [] then (none, SaveLog.noDataToSave)
  else
    (some { encoding := toL "utf-8"
            delim := ','
            header := fieldnames
            rows := data.map recordFields },
     SaveLog.saved data.length outputFilename)

/-- The `--lang` CLI choice. -/
inductive Lang where
  | EN : Lang
  | TC : Lang
deriving DecidableEq

/-- Line 235: the output filename per language. -/
def csvFilename : Lang → Str
  | Lang.EN => toL "doctors.csv"
  | Lang.TC => toL "doctors_tc.csv"

/-- What a run of `main` does after scraping: either it prints
`No data scraped!` and returns before parsing or writing anything, or it
parses the records and invokes the writer. -/
inductive MainOutcome where
  | noData : MainOutcome
  | completed : List Record → Option CsvWrite × SaveLog → MainOutcome
deriving DecidableEq

/-- `main` (lines 211–239): `rowsOf` abstracts the external HTML library
(`BeautifulSoup(...).find_all('tr')` plus the per-row queries), `bs`
abstracts the browser behaviour per region and attempt. -/
def main (rowsOf : Str → List Row) (bs : Str → Nat → Attempt) (lang : Lang) :
    MainOutcome :=
  if scrape_all_regions bs = [] then MainOutcome.noData
  else
    MainOutcome.completed (parse_html_to_data (rowsOf (scrape_all_regions bs)))
      (save_to_csv (parse_html_to_data (rowsOf (scrape_all_regions bs)))
        (csvFilename lang))

/-- A concrete map anchor used to instantiate the theorems below. -/
def exMapAnchor : Anchor :=
  { href := some (toL "https://www.map.gov.hk/gm/map/s/template/wgs84/22.123/114.456")
    text := toL "Show Map"
    addrDiv := some (toL "1 Test Road Central") }

/-- A concrete row used to instantiate the theorems below. -/
def exRow : Row :=
  { nameDiv := some (toL "Dr Chan Tai Man")
    nameAnchor := some (some (toL "/Public/EN/Profile/1"))
    anchors := [exMapAnchor]
    cols := []
    planList := none }

/-- The record `parseRow` extracts from `exRow`. -/
def exRecord : Record :=
  { Name := toL "Dr Chan Tai Man"
    ProfileLink := toL "https://apps.pcdirectory.gov.hk/Public/EN/Profile/1"
    Description := []
    Address := toL "1 Test Road Central"
    Phone := []
    Lat := toL "22.123"
    Lon := toL "114.456"
    Programs := [] }

/-- The profile anchor wrapping the name div of an ordinary row. -/
def exProfileAnchor : Anchor :=
  { href := some (toL "/Public/EN/Profile/1")
    text := toL "Dr Chan Tai Man"
    addrDiv := none }

/-- The telephone anchor of an ordinary row. -/
def exTelAnchor : Anchor :=
  { href := some (toL "tel:+85212345678")
    text := toL "+852 1234 5678"
    addrDiv := none }

/-- An ordinary row with several anchors in document order: the profile
link around the name, the telephone link, and the map link. -/
def exMultiRow : Row :=
  { nameDiv := some (toL "Dr Chan Tai Man")
    nameAnchor := some (some (toL "/Public/EN/Profile/1"))
    anchors := [exProfileAnchor, exTelAnchor, exMapAnchor]
    cols := []
    planList := none }

/-- The record `parseRow` extracts from `exMultiRow`. -/
def exMultiRecord : Record :=
  { Name := toL "Dr Chan Tai Man"
    ProfileLink := toL "https://apps.pcdirectory.gov.hk/Public/EN/Profile/1"
    Description := []
    Address := toL "1 Test Road Central"
    Phone := toL "+852 1234 5678"
    Lat := toL "22.123"
    Lon := toL "114.456"
    Programs := [] }

/-! ### Helper lemmas -/

/-- Every word produced by `splitWSAux` from a whitespace-free accumulator
is nonempty and whitespace-free. -/
theorem splitWSAux_words : ∀ (l acc : Str), (∀ c ∈ acc, isPySpace c = false) →
    ∀ w ∈ splitWSAux acc l, w ≠ [] ∧ ∀ c ∈ w, isPySpace c = false := by
  intro l
  induction l with
  | nil =>
    intro acc hacc w hw
    by_cases h : acc = []
    · simp [splitWSAux, h] at hw
    · rw [splitWSAux, if_neg h] at hw
      rcases List.mem_singleton.mp hw with rfl
      exact ⟨h, hacc⟩
  | cons c t ih =>
    intro acc hacc w hw
    by_cases hc : isPySpace c
    · by_cases h : acc = []
      · rw [splitWSAux, if_pos hc, if_pos h] at hw
        exact ih [] (by simp) w hw
      · rw [splitWSAux, if_pos hc, if_neg h] at hw
        rcases List.mem_cons.mp hw with rfl | hw
        · exact ⟨h, hacc⟩
        · exact ih [] (by simp) w hw
    · rw [splitWSAux, if_neg hc] at hw
      refine ih (acc ++ [c]) ?_ w hw
      intro x hx
      rcases List.mem_append.mp hx with hx | hx
      · exact hacc x hx
      · rcases List.mem_singleton.mp hx with rfl
        simpa using hc

/-- Scanning a whitespace-free word just extends the accumulator. -/
theorem splitWSAux_append_word : ∀ (w l acc : Str), (∀ c ∈ w, isPySpace c = false) →
    splitWSAux acc (w ++ l) = splitWSAux (acc ++ w) l := by
  intro w
  induction w with
  | nil => intro l acc _; simp
  | cons c w ih =>
    intro l acc hw
    have hc : ¬ isPySpace c = true := by
      simp [hw c (List.mem_cons_self c w)]
    rw [List.cons_append, splitWSAux, if_neg hc, ih l (acc ++ [c])
      (fun x hx => hw x (List.mem_cons_of_mem c hx)), List.append_assoc]
    rfl

/-- Splitting a join of nonempty whitespace-free words recovers the words. -/
theorem splitWS_joinSep : ∀ ws : List Str,
    (∀ w ∈ ws, w ≠ [] ∧ ∀ c ∈ w, isPySpace c = false) →
    splitWS (joinSep [' '] ws) = ws := by
  intro ws
  induction ws with
  | nil => intro _; rfl
  | cons w ws ih =>
    intro h
    obtain ⟨hwne, hwsf⟩ := h w (List.mem_cons_self w ws)
    cases ws with
    | nil =>
      show splitWSAux [] (joinSep [' '] [w]) = [w]
      have : joinSep [' '] [w] = w ++ [] := by simp [joinSep]
      rw [this, splitWSAux_append_word w [] [] hwsf]
      simp [splitWSAux, hwne]
    | cons x rest =>
      show splitWSAux [] (joinSep [' '] (w :: x :: rest)) = w :: x :: rest
      rw [joinSep, List.append_assoc]
      rw [splitWSAux_append_word w ([' '] ++ joinSep [' '] (x :: rest)) [] hwsf]
      show splitWSAux w (' ' :: joinSep [' '] (x :: rest)) = _
      rw [splitWSAux, if_pos (by decide), if_neg hwne]
      exact congrArg (w :: ·) (ih (fun v hv => h v (List.mem_cons_of_mem w hv)))

/-- `runPages` on an exception-free pagination returns all its pages. -/
theorem runPages_mkPages : ∀ (hs : List Str) (h : Str),
    runPages (mkPages h hs) = some (h :: hs) := by
  intro hs
  induction hs with
  | nil => intro h; rfl
  | cons h2 t ih => intro h; rw [mkPages, runPages, ih h2]; rfl

/-- With every attempt failing, the retry loop produces no markup and the
all-fail event trace. -/
theorem scrapeRegionAux_allFail (b : Nat → Attempt) (n : Nat)
    (hb : ∀ i, runAttempt (b i) = none) :
    ∀ rem i, scrapeRegionAux b n rem i = (none, allFailTrace n rem i) := by
  intro rem
  induction rem with
  | zero => intro i; rfl
  | succ rem ih =>
    intro i
    rw [scrapeRegionAux, hb i, allFailTrace]
    by_cases h : i < n - 1
    · rw [if_pos h, if_pos h, ih (i + 1)]
    · rw [if_neg h, if_neg h]

/-- The all-fail trace of a full retry loop records one failure per attempt. -/
theorem allFailTrace_count (n : Nat) : ∀ rem i, i + rem = n →
    (allFailTrace n rem i).countP
      (fun e => match e with
        | RegionEvent.attemptFailed _ => true
        | _ => false) = rem := by
  intro rem
  induction rem with
  | zero => intro i _; rfl
  | succ rem ih =>
    intro i hi
    rw [allFailTrace]
    by_cases h : i < n - 1
    · rw [if_pos h]
      simp only [List.countP_cons]
      rw [ih (i + 1) (by omega)]
      simp
    · rw [if_neg h]
      have : rem = 0 := by omega
      subst this
      rfl

/-- Shifting the attempt counter by one: the tail of a retry loop is a fresh
retry loop on the shifted behaviour, with event indices bumped. -/
theorem scrapeRegionAux_shift (b : Nat → Attempt) (n : Nat) :
    ∀ rem i, scrapeRegionAux b n rem (i + 1)
      = ((scrapeRegionAux (fun j => b (j + 1)) (n - 1) rem i).1,
         (scrapeRegionAux (fun j => b (j + 1)) (n - 1) rem i).2.map bump) := by
  intro rem
  induction rem with
  | zero => intro i; rfl
  | succ rem ih =>
    intro i
    rw [scrapeRegionAux, scrapeRegionAux]
    cases hA : runAttempt (b (i + 1)) with
    | some s => rfl
    | none =>
      have hlt : (i + 1 < n - 1) = (i < n - 1 - 1) := by
        simp only [eq_iff_iff]
        omega
      by_cases h : i + 1 < n - 1
      · rw [if_pos h, if_pos (by omega : i < n - 1 - 1), ih (i + 1)]
        rfl
      · rw [if_neg h, if_neg (by omega : ¬ i < n - 1 - 1)]
        rfl

/-- A region whose attempts all fail contributes nothing. -/
theorem regionResult_none (bs : Str → Nat → Attempt) (r : Str)
    (hb : ∀ i, runAttempt (bs r i) = none) : regionResult bs r = none := by
  rw [regionResult]
  have : scrape_region (bs r) 3 = (none, allFailTrace 3 3 0) :=
    scrapeRegionAux_allFail (bs r) 3 hb 3 0
  rw [this]

/-! ### Claims -/

/-- C6: the address normalization `" ".join(address.split())` (line 171) is
idempotent: normalizing an already-normalized string changes nothing. -/
theorem normWS_idempotent : ∀ s : Str, normWS (normWS s) = normWS s := by
  intro s
  show joinSep [' '] (splitWS (joinSep [' '] (splitWS s))) = _
  rw [splitWS_joinSep (splitWS s) (splitWSAux_words s [] (by simp))]
  rfl

/-- C8: `save_to_csv` on an empty record list writes no file, informs the
caller via the `No data to save` log message, and returns normally. -/
theorem save_to_csv_empty_no_write :
    ∀ f : Str, save_to_csv [] f = (none, SaveLog.noDataToSave) :=
  fun _ => rfl

/-- C7: on a nonempty record list, `save_to_csv` writes a UTF-8,
comma-delimited file whose header row is exactly
`Name, ProfileLink, Description, Address, Phone, Lat, Lon, Programs`
(`fieldnames`), followed by one row per record in input order. -/
theorem save_to_csv_header_rows (data : List Record) (f : Str)
    (hd : data ≠ []) :
    save_to_csv data f
      = (some { encoding := toL "utf-8"
                delim := ','
                header := fieldnames
                rows := data.map recordFields },
         SaveLog.saved data.length f) := by
  rw [save_to_csv, if_neg hd]

theorem save_to_csv_header_rows_witness :
    save_to_csv [exRecord] (toL "doctors.csv")
      = (some { encoding := toL "utf-8"
                delim := ','
                header := fieldnames
                rows := [exRecord].map recordFields },
         SaveLog.saved (List.length [exRecord]) (toL "doctors.csv")) :=
  save_to_csv_header_rows [exRecord] (toL "doctors.csv") (by decide)

/-- C3: a pagination sequence of `N` pages whose last page has no
"next page" control yields the newline-joined concatenation of exactly the
`N` per-page captures (`runPages` returns all `N` pages, in order), and the
absence of the control ends the loop as normal success: no retry event is
produced. -/
theorem pagination_captures_all_pages (b : Nat → Attempt) (h : Str)
    (hs : List Str) (hb : b 0 = Attempt.run (mkPages h hs)) :
    runPages (mkPages h hs) = some (h :: hs)
    ∧ scrape_region b 3 = (some (joinSep (toL "\n") (h :: hs)), []) := by
  refine ⟨runPages_mkPages hs h, ?_⟩
  show scrapeRegionAux b 3 3 0 = _
  rw [scrapeRegionAux, hb, runAttempt, runPages_mkPages hs h]
  rfl

theorem pagination_captures_all_pages_witness :
    runPages (mkPages (toL "p1") [toL "p2", toL "p3"])
      = some [toL "p1", toL "p2", toL "p3"]
    ∧ scrape_region (fun _ => Attempt.run (mkPages (toL "p1") [toL "p2", toL "p3"])) 3
      = (some (joinSep (toL "\n") [toL "p1", toL "p2", toL "p3"]), []) :=
  pagination_captures_all_pages _ _ _ rfl

/-- C2 counterexample: the claim says a timeout waiting for result rows to
re-render after advancing to the next page aborts the attempt and triggers
the 5-second-backoff retry.  In the code that wait sits inside the inner
`try` whose bare `except` just breaks the loop: with attempt 0 capturing
page 1, advancing, capturing page 2 and then raising inside the inner block
(`stopInnerExn`), and every later attempt failing, `scrape_region` returns
the two captured pages as success and records no failed attempt and no
backoff at all. -/
theorem inner_timeout_not_retried_cex :
    scrape_region
        (fun i => if i = 0 then
            Attempt.run (PageSeq.next (toL "page1") (PageSeq.stopInnerExn (toL "page2")))
          else Attempt.setupFail) 3
      = (some (toL "page1\npage2"), []) := by decide

/-- C2 (amended): an exception raised outside the inner pagination `try`
block — during navigation, the region click, the initial waits, or reading
the results body — aborts the attempt (`runAttempt = none`); the loop then
records the failed attempt, sleeps 5 seconds, and the next attempt is a
fresh run of the region from page 1: the remainder of the retry loop equals
`scrape_region` restarted on the shifted attempt behaviour.  An exception
*inside* the pagination block — such as the timeout waiting for rows to
re-render after advancing to the next page (`stopInnerExn`) — does not
abort the attempt: the bare `except: break` ends the loop and the attempt
returns the pages captured so far. -/
theorem attempt_failure_backoff (b : Nat → Attempt) (n : Nat) (hn : 2 ≤ n)
    (hfail : runAttempt (b 0) = none) (h1 h2 : Str) :
    ((scrape_region b n).1 = (scrape_region (fun i => b (i + 1)) (n - 1)).1
      ∧ (scrape_region b n).2
          = RegionEvent.attemptFailed 0 :: RegionEvent.sleptFive ::
              (scrape_region (fun i => b (i + 1)) (n - 1)).2.map bump)
    ∧ runAttempt (Attempt.run (PageSeq.next h1 (PageSeq.stopInnerExn h2)))
        = some (joinSep (toL "\n") [h1, h2]) := by
  refine ⟨?_, rfl⟩
  obtain ⟨m, rfl⟩ : ∃ m, n = m + 2 := ⟨n - 2, by omega⟩
  show (scrapeRegionAux b (m + 2) (m + 2) 0).1 = _
    ∧ (scrapeRegionAux b (m + 2) (m + 2) 0).2 = _
  rw [scrapeRegionAux, hfail, if_pos (by omega : 0 < m + 2 - 1)]
  rw [(by rfl : (0 : Nat) + 1 = 1), scrapeRegionAux_shift b (m + 2) (m + 1) 0]
  exact ⟨rfl, rfl⟩

theorem attempt_failure_backoff_witness :
    ((scrape_region (fun _ => Attempt.setupFail) 2).1
        = (scrape_region (fun _ => Attempt.setupFail) 1).1
      ∧ (scrape_region (fun _ => Attempt.setupFail) 2).2
          = RegionEvent.attemptFailed 0 :: RegionEvent.sleptFive ::
              (scrape_region (fun _ => Attempt.setupFail) 1).2.map bump)
    ∧ runAttempt (Attempt.run (PageSeq.next (toL "a") (PageSeq.stopInnerExn (toL "b"))))
        = some (joinSep (toL "\n") [toL "a", toL "b"]) :=
  attempt_failure_backoff (fun _ => Attempt.setupFail) 2 (by decide) rfl
    (toL "a") (toL "b")

/-- C4: when every attempt of a region raises, `scrape_region` runs exactly
`max_retries` attempts (one `attemptFailed` event per attempt, with a
5-second backoff between consecutive ones) and returns `None`; under the
default `max_retries = 3` of `scrape_all_regions` such a region (here
`CommandHK`) contributes no markup and the run continues with the remaining
regions. -/
theorem retries_exhausted_region_skipped (b : Nat → Attempt) (n : Nat)
    (hb : ∀ i, runAttempt (b i) = none)
    (bs : Str → Nat → Attempt)
    (hbs : ∀ i, runAttempt (bs (toL "CommandHK") i) = none) :
    scrape_region b n = (none, allFailTrace n n 0)
    ∧ (allFailTrace n n 0).countP
        (fun e => match e with
          | RegionEvent.attemptFailed _ => true
          | _ => false) = n
    ∧ scrape_all_regions bs
        = joinSep (toL "\n")
            (List.filterMap (regionResult bs) [toL "CommandKLN", toL "CommandNT"]) := by
  refine ⟨scrapeRegionAux_allFail b n hb n 0, allFailTrace_count n n 0 (by omega), ?_⟩
  rw [scrape_all_regions, REGION_BUTTONS, List.filterMap_cons,
    regionResult_none bs (toL "CommandHK") hbs]

theorem retries_exhausted_region_skipped_witness :
    scrape_region (fun _ => Attempt.setupFail) 3 = (none, allFailTrace 3 3 0)
    ∧ (allFailTrace 3 3 0).countP
        (fun e => match e with
          | RegionEvent.attemptFailed _ => true
          | _ => false) = 3
    ∧ scrape_all_regions (fun _ _ => Attempt.setupFail)
        = joinSep (toL "\n")
            (List.filterMap (regionResult (fun _ _ => Attempt.setupFail))
              [toL "CommandKLN", toL "CommandNT"]) :=
  retries_exhausted_region_skipped (fun _ => Attempt.setupFail) 3
    (fun _ => rfl) (fun _ _ => Attempt.setupFail) (fun _ => rfl)

/-- C9: when every attempt of every region raises, no markup is collected,
and `main` takes the `No data scraped!` early return: the pipeline ends as
`noData`, whose branch of `main` parses no records and invokes no writer. -/
theorem total_failure_reports_no_data (rowsOf : Str → List Row)
    (bs : Str → Nat → Attempt) (lang : Lang)
    (hb : ∀ r i, runAttempt (bs r i) = none) :
    main rowsOf bs lang = MainOutcome.noData := by
  have hall : scrape_all_regions bs = [] := by
    rw [scrape_all_regions, REGION_BUTTONS, List.filterMap_cons,
      regionResult_none bs (toL "CommandHK") (hb _), List.filterMap_cons,
      regionResult_none bs (toL "CommandKLN") (hb _), List.filterMap_cons,
      regionResult_none bs (toL "CommandNT") (hb _)]
    rfl
  rw [main, if_pos hall]

theorem total_failure_reports_no_data_witness :
    main (fun _ => []) (fun _ _ => Attempt.setupFail) Lang.EN
      = MainOutcome.noData :=
  total_failure_reports_no_data (fun _ => []) (fun _ _ => Attempt.setupFail)
    Lang.EN (fun _ _ => rfl)

/-- A successful `parseRow` forces the shape of the emitted record: the row
has a name div whose text is nonempty, the normalized address is nonempty,
and every field comes from the corresponding extraction function. -/
theorem parseRow_some_fields {row : Row} {rec : Record}
    (h : parseRow row = some rec) :
    ∃ name, row.nameDiv = some name ∧ name ≠ [] ∧ addressOf row ≠ []
      ∧ rec = { Name := name
                ProfileLink := profileLinkOf row
                Description := practiceOf row
                Address := addressOf row
                Phone := phoneOf row
                Lat := (latLonOf row).1
                Lon := (latLonOf row).2
                Programs := programsOf row } := by
  rw [parseRow] at h
  split at h
  · cases h
  · rename_i name hnd
    split at h
    · rename_i hc
      exact ⟨name, hnd, hc.1, hc.2, (Option.some_inj.mp h).symm⟩
    · cases h

/-- C1: every record emitted by `parse_html_to_data` has a nonempty `Name`
and a nonempty (whitespace-normalized) `Address` — the `if name and
address` guard — and a row without a name element (`div.PHName`) produces
no record at all (`continue`). -/
theorem parse_records_name_address_nonempty :
    (∀ rows rec, rec ∈ parse_html_to_data rows →
        rec.Name ≠ [] ∧ rec.Address ≠ [])
    ∧ ∀ row, row.nameDiv = none → parseRow row = none := by
  constructor
  · intro rows rec hmem
    rw [parse_html_to_data, List.mem_filterMap] at hmem
    obtain ⟨row, _, hrow⟩ := hmem
    obtain ⟨name, hnd, hne, hae, rfl⟩ := parseRow_some_fields hrow
    exact ⟨hne, hae⟩
  · intro row h
    rw [parseRow, h]

theorem parse_records_name_address_nonempty_witness :
    exRecord.Name ≠ [] ∧ exRecord.Address ≠ [] :=
  parse_records_name_address_nonempty.1 [exRow] exRecord (by decide)

/-- A successful match of the coordinate regex has two nonempty groups. -/
theorem matchAt_groups {l : Str} {a b : Str} (h : matchAt l = some (a, b)) :
    a ≠ [] ∧ b ≠ [] := by
  rw [matchAt] at h
  split at h
  · split at h
    · cases h
    · rename_i hd1
      split at h
      · split at h
        · cases h
        · rename_i hd2
          have hp := Option.some_inj.mp h
          rw [Prod.mk.injEq] at hp
          obtain ⟨h1, h2⟩ := hp
          subst h1
          subst h2
          exact ⟨hd1, hd2⟩
      · cases h
  · cases h

/-- `re.search` on the coordinate regex returns two nonempty groups. -/
theorem wgs84Search_groups : ∀ (l : Str) (a b : Str),
    wgs84Search l = some (a, b) → a ≠ [] ∧ b ≠ [] := by
  intro l
  induction l with
  | nil => intro a b h; cases h
  | cons c t ih =>
    intro a b h
    rw [wgs84Search] at h
    split at h
    · rename_i heq
      cases h
      exact matchAt_groups heq
    · exact ih a b h

/-- The lat/lon pair of a row is either the empty pair or has two nonempty
components. -/
theorem latLonOf_shape (row : Row) :
    latLonOf row = ([], [])
    ∨ ((latLonOf row).1 ≠ [] ∧ (latLonOf row).2 ≠ []) := by
  rw [latLonOf]
  split
  · split
    · rename_i p heq
      right
      obtain ⟨p1, p2⟩ := p
      exact wgs84Search_groups _ p1 p2 heq
    · exact Or.inl rfl
  · exact Or.inl rfl

/-- C10: in every emitted record, `Lat` and `Lon` are either both empty or
both nonempty: they are set together from the two groups of one regex match
on the map-link URL, and stay empty when there is no map link or no match. -/
theorem latlon_both_or_neither :
    ∀ rows rec, rec ∈ parse_html_to_data rows →
      (rec.Lat = [] ∧ rec.Lon = []) ∨ (rec.Lat ≠ [] ∧ rec.Lon ≠ []) := by
  intro rows rec hmem
  rw [parse_html_to_data, List.mem_filterMap] at hmem
  obtain ⟨row, _, hrow⟩ := hmem
  obtain ⟨name, hnd, hne, hae, rfl⟩ := parseRow_some_fields hrow
  rcases latLonOf_shape row with hz | hnz
  · have h1 : (latLonOf row).1 = [] := by rw [hz]
    have h2 : (latLonOf row).2 = [] := by rw [hz]
    exact Or.inl ⟨h1, h2⟩
  · exact Or.inr hnz

theorem latlon_both_or_neither_witness :
    (exRecord.Lat = [] ∧ exRecord.Lon = [])
    ∨ (exRecord.Lat ≠ [] ∧ exRecord.Lon ≠ []) :=
  latlon_both_or_neither [exRow] exRecord (by decide)

/-- `takeWhile` passes over a block that wholly satisfies the predicate. -/
theorem takeWhile_append_all {p : Char → Bool} : ∀ (w l : Str),
    (∀ c ∈ w, p c = true) → (w ++ l).takeWhile p = w ++ l.takeWhile p := by
  intro w
  induction w with
  | nil => intro l _; rfl
  | cons c w ih =>
    intro l hw
    rw [List.cons_append,
      List.takeWhile_cons_of_pos (hw c (List.mem_cons_self c w)),
      ih l (fun x hx => hw x (List.mem_cons_of_mem c hx))]
    rfl

/-- `dropWhile` passes over a block that wholly satisfies the predicate. -/
theorem dropWhile_append_all {p : Char → Bool} : ∀ (w l : Str),
    (∀ c ∈ w, p c = true) → (w ++ l).dropWhile p = l.dropWhile p := by
  intro w
  induction w with
  | nil => intro l _; rfl
  | cons c w ih =>
    intro l hw
    rw [List.cons_append,
      List.dropWhile_cons_of_pos (hw c (List.mem_cons_self c w)),
      ih l (fun x hx => hw x (List.mem_cons_of_mem c hx))]

/-- The coordinate regex matches at the head of
`wgs84/22.123/114.456 ++ post` when `post` does not begin with a digit or a
dot, yielding exactly the two coordinate groups. -/
theorem matchAt_seg (post : Str) (hpost : post.takeWhile isDigitDot = []) :
    matchAt (toL "wgs84/22.123/114.456" ++ post)
      = some (toL "22.123", toL "114.456") := by
  have h0 : toL "wgs84/22.123/114.456"
      = (wgsTag ++ toL "22.123") ++ ('/' :: toL "114.456") := by decide
  rw [h0, List.append_assoc, List.append_assoc, List.cons_append]
  have hA : ∀ c ∈ toL "22.123", isDigitDot c = true := by decide
  have hslash : ¬ isDigitDot '/' = true := by decide
  have hpre : wgsTag.isPrefixOf
      (wgsTag ++ (toL "22.123" ++ '/' :: (toL "114.456" ++ post))) = true :=
    List.isPrefixOf_iff_prefix.mpr (List.prefix_append _ _)
  have hdrop : (wgsTag ++ (toL "22.123" ++ '/' :: (toL "114.456" ++ post))).drop
      wgsTag.length = toL "22.123" ++ '/' :: (toL "114.456" ++ post) :=
    List.drop_left _ _
  have htw : (toL "22.123" ++ '/' :: (toL "114.456" ++ post)).takeWhile isDigitDot
      = toL "22.123" := by
    rw [takeWhile_append_all _ _ hA, List.takeWhile_cons_of_neg hslash,
      List.append_nil]
  have hdw : (toL "22.123" ++ '/' :: (toL "114.456" ++ post)).dropWhile isDigitDot
      = '/' :: (toL "114.456" ++ post) := by
    rw [dropWhile_append_all _ _ hA, List.dropWhile_cons_of_neg hslash]
  have hAne : ¬ (toL "22.123" = ([] : Str)) := by decide
  rw [matchAt, if_pos hpre, hdrop, htw, if_neg hAne, hdw]
  show (if (toL "114.456" ++ post).takeWhile isDigitDot = [] then none
        else some ((toL "22.123" : Str),
          (toL "114.456" ++ post).takeWhile isDigitDot))
      = some (toL "22.123", toL "114.456")
  have hB : ∀ c ∈ toL "114.456", isDigitDot c = true := by decide
  have htw2 : (toL "114.456" ++ post).takeWhile isDigitDot = toL "114.456" := by
    rw [takeWhile_append_all _ _ hB, hpost, List.append_nil]
  have hBne : ¬ (toL "114.456" = ([] : Str)) := by decide
  rw [htw2, if_neg hBne]

/-- `matchAt` fails wherever the literal `wgs84/` is not a prefix. -/
theorem matchAt_none_of_no_tag {l : Str} (h : wgsTag.isPrefixOf l = false) :
    matchAt l = none := by
  rw [matchAt, h]
  rfl

/-- The regex search skips a leading region that contains no match
position. -/
theorem wgs84Search_append_skip : ∀ (pre tail : Str),
    (∀ s, s <:+ pre → s ≠ [] → matchAt (s ++ tail) = none) →
    wgs84Search (pre ++ tail) = wgs84Search tail := by
  intro pre
  induction pre with
  | nil => intro tail _; rfl
  | cons c p ih =>
    intro tail h
    have hm : matchAt ((c :: p) ++ tail) = none :=
      h (c :: p) (List.suffix_refl _) (by simp)
    rw [List.cons_append] at hm
    rw [List.cons_append, wgs84Search, hm]
    exact ih tail (fun s hs hne => h s (hs.trans (List.suffix_cons c p)) hne)

/-- If `wgs84/` does not occur in `pre`, no position inside `pre` can start
a regex match, whatever follows `pre`. -/
theorem no_match_in_pre (pre post : Str) (hpre : hasSub wgsTag pre = false) :
    ∀ s, s <:+ pre → s ≠ [] →
      matchAt (s ++ (toL "wgs84/22.123/114.456" ++ post)) = none := by
  intro s hs hne
  apply matchAt_none_of_no_tag
  cases hx : wgsTag.isPrefixOf (s ++ (toL "wgs84/22.123/114.456" ++ post)) with
  | false => rfl
  | true =>
    have hp : wgsTag <+: s ++ (toL "wgs84/22.123/114.456" ++ post) :=
      List.isPrefixOf_iff_prefix.mp hx
    have htake := List.prefix_iff_eq_take.mp hp
    by_cases hlen : 6 ≤ s.length
    · have h6 : wgsTag = s.take 6 := by
        rw [htake, (by decide : wgsTag.length = 6), List.take_append_eq_append_take,
          Nat.sub_eq_zero_of_le hlen, List.take_zero, List.append_nil]
      have hps : wgsTag <+: s := by
        rw [List.prefix_iff_eq_take, (by decide : wgsTag.length = 6)]
        exact h6
      have hcontra : hasSub wgsTag pre = true := by
        rw [hasSub, List.any_eq_true]
        exact ⟨s, (List.mem_tails _ _).mpr hs,
          List.isPrefixOf_iff_prefix.mpr hps⟩
      rw [hcontra] at hpre
      exact Bool.noConfusion hpre
    · have h1 : 1 ≤ s.length := List.length_pos.mpr hne
      have h5 : s.length ≤ 5 := by omega
      have htake' : wgsTag
          = s ++ List.take (6 - s.length) (toL "wgs84/22.123/114.456" ++ post) := by
        rw [htake, (by decide : wgsTag.length = 6), List.take_append_eq_append_take,
          List.take_of_length_le (by omega : s.length ≤ 6)]
      have hdrop6 : List.drop s.length wgsTag
          = List.take (6 - s.length) (toL "wgs84/22.123/114.456" ++ post) := by
        conv_lhs => rw [htake']
        exact List.drop_left s _
      have hseg20 : (6 - s.length) - (toL "wgs84/22.123/114.456").length = 0 := by
        have h20 : (toL "wgs84/22.123/114.456").length = 20 := by decide
        omega
      have hdrop6' : List.drop s.length wgsTag
          = List.take (6 - s.length) (toL "wgs84/22.123/114.456") := by
        rw [hdrop6, List.take_append_eq_append_take, hseg20, List.take_zero,
          List.append_nil]
      set k := s.length with hk
      interval_cases k
      · exact absurd hdrop6' (by decide)
      · exact absurd hdrop6' (by decide)
      · exact absurd hdrop6' (by decide)
      · exact absurd hdrop6' (by decide)
      · exact absurd hdrop6' (by decide)

/-- `re.search` on a URL whose only `wgs84/` segment is
`wgs84/22.123/114.456` (not followed by a further digit or dot) finds
exactly the two coordinate groups. -/
theorem wgs84Search_segment (pre post : Str)
    (hpre : hasSub wgsTag pre = false)
    (hpost : post.takeWhile isDigitDot = []) :
    wgs84Search (pre ++ (toL "wgs84/22.123/114.456" ++ post))
      = some (toL "22.123", toL "114.456") := by
  rw [wgs84Search_append_skip pre _ (no_match_in_pre pre post hpre)]
  have hm := matchAt_seg post hpost
  have hcons : toL "wgs84/22.123/114.456"
      = 'w' :: toL "gs84/22.123/114.456" := by decide
  rw [hcons, List.cons_append] at hm ⊢
  rw [wgs84Search, hm]

/-- C5: for any row whose map link — the first anchor of the row whose
href contains `map.gov.hk`, as found at line 150 — has a URL containing
the path segment `wgs84/22.123/114.456` (written
`pre ++ "wgs84/22.123/114.456" ++ post` with no `wgs84/` occurrence before
it and no digit or dot directly after it), the extractor sets `Lat` to
exactly `"22.123"` and `Lon` to exactly `"114.456"` via the fixed pattern
of two decimal-character groups after the `wgs84/` segment. -/
theorem wgs84_latlon_extraction (pre post : Str)
    (hpre : hasSub wgsTag pre = false)
    (hpost : post.takeWhile isDigitDot = [])
    (row : Row) (a : Anchor) (rec : Record)
    (hml : mapLinkOf row = some a)
    (hhref : a.href = some (pre ++ (toL "wgs84/22.123/114.456" ++ post)))
    (hrec : parseRow row = some rec) :
    rec.Lat = toL "22.123" ∧ rec.Lon = toL "114.456" := by
  obtain ⟨name, hnd, hne, hae, rfl⟩ := parseRow_some_fields hrec
  have hhl : hrefOf a = pre ++ (toL "wgs84/22.123/114.456" ++ post) := by
    rw [hrefOf, hhref]
  have hll : latLonOf row = (toL "22.123", toL "114.456") := by
    rw [latLonOf, hml]
    show (match wgs84Search (hrefOf a) with
          | some p => p
          | none => ([], [])) = (toL "22.123", toL "114.456")
    rw [hhl, wgs84Search_segment pre post hpre hpost]
  have hLat : (latLonOf row).1 = toL "22.123" := by rw [hll]
  have hLon : (latLonOf row).2 = toL "114.456" := by rw [hll]
  exact ⟨hLat, hLon⟩

theorem wgs84_latlon_extraction_witness :
    exMultiRecord.Lat = toL "22.123" ∧ exMultiRecord.Lon = toL "114.456" :=
  wgs84_latlon_extraction (toL "https://www.map.gov.hk/gm/map/s/template/") []
    (by decide) (by decide) exMultiRow exMapAnchor exMultiRecord (by decide)
    (by decide) (by decide)

end DoctorsScraper
